import Mathlib

/-!
Verification of the calibration / coordinate-projection engine of the
camping-map application.

The data model follows src/unnamed/part_000 (the shared type declarations),
the geometric engine follows src/services/geo.ts, and the proximity /
check-in orchestration follows src/App.tsx and
src/components/SpotDetailModal.tsx.  JavaScript numbers are modelled as
real numbers, together with an explicit finite/infinite/NaN wrapper
(`JSNum`) wherever the code can produce the IEEE special values
(the unguarded division `distMeters / distPixels` in App.tsx).
-/

noncomputable section
open Classical

/-- Geographic coordinate, `Coord` in the source: `{ lat, lng }`. -/
structure Coord where
  lat : ℝ
  lng : ℝ

/-- Pixel coordinate, `PixelCoord` in the source: `{ x, y }`. -/
structure PixelCoord where
  x : ℝ
  y : ℝ

/-- Type `CalibrationPoint` in the source: a pixel/geo correspondence. -/
structure CalibrationPoint where
  id : ℝ
  pixel_x : ℝ
  pixel_y : ℝ
  lat : ℝ
  lng : ℝ

/-- The `type` field of a `Spot`: facility, scenery or tent. -/
inductive SpotType where
  | facility
  | scenery
  | tent

/-- Type `Spot` in the source.  `speech_text` is an optional string field;
`none` models an absent field and `some ""` an empty string (both are
falsy in JavaScript). -/
structure Spot where
  id : String
  name : String
  desc : String
  speech_text : Option String
  pixel_x : ℝ
  pixel_y : ℝ
  has_mission : Bool
  type : SpotType

/-- Type `AppData` in the source: the persisted application state. -/
structure AppData where
  calibration_points : List CalibrationPoint
  spots : List Spot

/-- The affine transform record `{ A, B, C, D, E, F }` returned by
`getAffineTransform`: `x = A·lat + B·lng + C`, `y = D·lat + E·lng + F`. -/
structure AffineTransform where
  A : ℝ
  B : ℝ
  C : ℝ
  D : ℝ
  E : ℝ
  F : ℝ

/-- The determinant computed by `getAffineTransform` (geo.ts lines 20-24)
from the latitudes/longitudes of the first three calibration points. -/
def calibDet (p1 p2 p3 : CalibrationPoint) : ℝ :=
  p1.lat * (p2.lng - p3.lng) +
  p2.lat * (p3.lng - p1.lng) +
  p3.lat * (p1.lng - p2.lng)

/-- Function `getAffineTransform` (geo.ts lines 11-65).  Returns `none` for fewer
than 3 points (line 12); otherwise uses exactly the first three points
(lines 15-17), returns `none` when `|det| < 1e-9` (line 26) and the
Cramer-rule coefficients otherwise. -/
def getAffineTransform (points : List CalibrationPoint) : Option AffineTransform :=
  match points with
  | p1 :: p2 :: p3 :: _ =>
    let det := calibDet p1 p2 p3
    if |det| < 1e-9 then none
    else some
      { A := (p1.pixel_x * (p2.lng - p3.lng) +
              p2.pixel_x * (p3.lng - p1.lng) +
              p3.pixel_x * (p1.lng - p2.lng)) / det
        B := (p1.pixel_x * (p3.lat - p2.lat) +
              p2.pixel_x * (p1.lat - p3.lat) +
              p3.pixel_x * (p2.lat - p1.lat)) / det
        C := (p1.pixel_x * (p2.lat * p3.lng - p3.lat * p2.lng) +
              p2.pixel_x * (p3.lat * p1.lng - p1.lat * p3.lng) +
              p3.pixel_x * (p1.lat * p2.lng - p2.lat * p1.lng)) / det
        D := (p1.pixel_y * (p2.lng - p3.lng) +
              p2.pixel_y * (p3.lng - p1.lng) +
              p3.pixel_y * (p1.lng - p2.lng)) / det
        E := (p1.pixel_y * (p3.lat - p2.lat) +
              p2.pixel_y * (p1.lat - p3.lat) +
              p3.pixel_y * (p2.lat - p1.lat)) / det
        F := (p1.pixel_y * (p2.lat * p3.lng - p3.lat * p2.lng) +
              p2.pixel_y * (p3.lat * p1.lng - p1.lat * p3.lng) +
              p3.pixel_y * (p1.lat * p2.lng - p2.lat * p1.lng)) / det }
  | _ => none

/-- Function `latLngToPixel` (geo.ts lines 67-79): applies the affine transform,
propagating `null`. -/
def latLngToPixel (lat lng : ℝ) (transform : Option AffineTransform) :
    Option PixelCoord :=
  match transform with
  | none => none
  | some t => some ⟨t.A * lat + t.B * lng + t.C, t.D * lat + t.E * lng + t.F⟩

/-- Models ECMAScript `Math.atan2` on real operands (signed zeros and NaN
operands do not arise in the real-number model; our call sites always pass
nonnegative arguments). -/
def jsAtan2 (y x : ℝ) : ℝ :=
  if x > 0 then Real.arctan (y / x)
  else if x < 0 then
    (if y ≥ 0 then Real.arctan (y / x) + Real.pi
     else Real.arctan (y / x) - Real.pi)
  else
    (if y > 0 then Real.pi / 2
     else if y < 0 then -(Real.pi / 2)
     else 0)

/-- The haversine intermediate `a` of `getDistanceMeters`
(geo.ts lines 89-91). -/
def haversineIntermediate (c1 c2 : Coord) : ℝ :=
  let phi1 := c1.lat * Real.pi / 180
  let phi2 := c2.lat * Real.pi / 180
  let dphi := (c2.lat - c1.lat) * Real.pi / 180
  let dlam := (c2.lng - c1.lng) * Real.pi / 180
  Real.sin (dphi / 2) * Real.sin (dphi / 2) +
    Real.cos phi1 * Real.cos phi2 *
      Real.sin (dlam / 2) * Real.sin (dlam / 2)

/-- Function `getDistanceMeters` (geo.ts lines 82-95): haversine distance with
Earth radius 6371e3 meters. -/
def getDistanceMeters (c1 c2 : Coord) : ℝ :=
  let R : ℝ := 6371e3
  let a := haversineIntermediate c1 c2
  let c := 2 * jsAtan2 (Real.sqrt a) (Real.sqrt (1 - a))
  R * c

/-- A JavaScript number that may carry an IEEE special value.  Finite
values are modelled as exact reals. -/
inductive JSNum where
  | fin : ℝ → JSNum
  | inf : JSNum
  | ninf : JSNum
  | nan : JSNum

/-- Models IEEE division of two finite doubles (`distMeters / distPixels`
in App.tsx line 162).  The zero divisor here is `+0` (a square root), so
`x / 0` is `+Infinity` for positive `x`, `-Infinity` for negative `x`
and `NaN` for `0 / 0`. -/
def jsDiv (a b : ℝ) : JSNum :=
  if b ≠ 0 then .fin (a / b)
  else if a > 0 then .inf
  else if a < 0 then .ninf
  else .nan

/-- Models IEEE multiplication of a finite double by a possibly-special
double (`pixelDist * metersPerPixel` in App.tsx line 164). -/
def jsMulFin (x : ℝ) (n : JSNum) : JSNum :=
  match n with
  | .fin y => .fin (x * y)
  | .inf => if x > 0 then .inf else if x < 0 then .ninf else .nan
  | .ninf => if x > 0 then .ninf else if x < 0 then .inf else .nan
  | .nan => .nan

/-- Models the JavaScript `<` comparison on numbers: any comparison with
NaN is false, `-Infinity < x` for every non-NaN `x ≠ -Infinity`, and
`x < Infinity` for every finite `x`. -/
def jsLt (m n : JSNum) : Prop :=
  match m, n with
  | .nan, _ => False
  | _, .nan => False
  | .ninf, .ninf => False
  | .ninf, _ => True
  | .fin x, .fin y => x < y
  | .fin _, .inf => True
  | .fin _, .ninf => False
  | .inf, _ => False

/-- Models JavaScript truthiness of a number: `0` and `NaN` are falsy,
every other number (including infinities) is truthy. -/
def jsTruthy (n : JSNum) : Prop :=
  match n with
  | .fin x => x ≠ 0
  | .inf => True
  | .ninf => True
  | .nan => False

/-- Models JavaScript truthiness of the optional `speech_text` field:
an absent field and the empty string are falsy. -/
def speechTruthy (s : Option String) : Prop :=
  match s with
  | none => False
  | some t => t ≠ ""

/-- Constant `AUTO_SPEECH_DISTANCE` (App.tsx line 38). -/
def AUTO_SPEECH_DISTANCE : ℝ := 20

/-- Euclidean pixel distance between the first two calibration points
(App.tsx line 161, `Math.pow(..., 2)` form). -/
def pixelsBetween (p1 p2 : CalibrationPoint) : ℝ :=
  Real.sqrt ((p1.pixel_x - p2.pixel_x) ^ 2 + (p1.pixel_y - p2.pixel_y) ^ 2)

/-- The per-spot distance estimate of the proximity loop body
(App.tsx lines 151-164): pixel distance from the user to the spot,
multiplied by the meters-per-pixel ratio derived from the first two
calibration points.  The division is the unguarded JavaScript `/`. -/
def spotDistM (up : PixelCoord) (p1 p2 : CalibrationPoint) (s : Spot) : JSNum :=
  let dx := up.x - s.pixel_x
  let dy := up.y - s.pixel_y
  let pixelDist := Real.sqrt (dx * dx + dy * dy)
  let distMeters := getDistanceMeters ⟨p1.lat, p1.lng⟩ ⟨p2.lat, p2.lng⟩
  let distPixels := pixelsBetween p1 p2
  jsMulFin pixelDist (jsDiv distMeters distPixels)

/-- One iteration of `data.spots.forEach` in the proximity effect
(App.tsx lines 139-172): guarded by `userPixel && transform` (line 151)
and `calibration_points.length >= 2` (line 157); updates the running
minimum when `distM < minDist` (line 166). -/
def proxStep (upx : Option PixelCoord) (tr : Option AffineTransform)
    (cp : List CalibrationPoint) (acc : JSNum × Option Spot) (s : Spot) :
    JSNum × Option Spot :=
  match upx, tr with
  | some up, some _ =>
    match cp with
    | p1 :: p2 :: _ =>
      if jsLt (spotDistM up p1 p2 s) acc.1 then (spotDistM up p1 p2 s, some s)
      else acc
    | _ => acc
  | _, _ => acc

/-- The complete minimum-finding loop of the proximity effect, started
from `minDist = Infinity`, `closest = null` (App.tsx lines 136-172). -/
def proxFold (upx : Option PixelCoord) (tr : Option AffineTransform)
    (d : AppData) : JSNum × Option Spot :=
  d.spots.foldl (proxStep upx tr d.calibration_points) (JSNum.inf, none)

/-- The outcome of one run of the proximity effect: the value stored in
`nearestSpotDist`, the updated `readSpeeches` set, and the id of the spot
whose narration was spoken (if any). -/
structure EffectResult where
  nearestSpotDist : Option JSNum
  readSpeeches : Finset String
  fired : Option String

/-- One run of the auto-speech / nearest-spot effect
(App.tsx lines 133-190).  Early return when `userGeo` or `data` is absent
(line 134) keeps the previous `nearestSpotDist`; otherwise
`nearestSpotDist` becomes `null` exactly when the fold left `minDist` at
`Infinity` (line 174), and the narration fires when the closest spot is
within `AUTO_SPEECH_DISTANCE`, not yet narrated, and has truthy
`speech_text` (lines 177-187). -/
def runProximityEffect (userGeo : Option Coord) (data : Option AppData)
    (userPixel : Option PixelCoord) (transform : Option AffineTransform)
    (nearestPrev : Option JSNum) (reads : Finset String) : EffectResult :=
  match userGeo, data with
  | some _, some d =>
    let r := proxFold userPixel transform d
    let nearest : Option JSNum :=
      match r.1 with
      | .inf => none
      | v => some v
    match r.2 with
    | some s =>
      if jsLt r.1 (.fin AUTO_SPEECH_DISTANCE) ∧ s.id ∉ reads ∧
          speechTruthy s.speech_text then
        ⟨nearest, insert s.id reads, some s.id⟩
      else ⟨nearest, reads, none⟩
    | none => ⟨nearest, reads, none⟩
  | _, _ => ⟨nearestPrev, reads, none⟩

/-- The inputs of one position-update cycle: the state variables the
proximity effect reads (App.tsx line 190 dependency list, minus the
session sets it owns). -/
structure AppUpdate where
  userGeo : Option Coord
  data : Option AppData
  userPixel : Option PixelCoord
  transform : Option AffineTransform

/-- The minimum-finding part of an update, independent of session state. -/
def proxResult (u : AppUpdate) : JSNum × Option Spot :=
  match u.userGeo, u.data with
  | some _, some d => proxFold u.userPixel u.transform d
  | _, _ => (JSNum.inf, none)

/-- The state-free part of the narration trigger condition for spot id
`id` at update `u`: the spot is the closest one, within
`AUTO_SPEECH_DISTANCE`, and has truthy narration text. -/
def fireEligible (u : AppUpdate) (id : String) : Prop :=
  ∃ s : Spot, (proxResult u).2 = some s ∧ s.id = id ∧
    jsLt (proxResult u).1 (.fin AUTO_SPEECH_DISTANCE) ∧
    speechTruthy s.speech_text

/-- One session step: runs the proximity effect on the mutable session
state (`nearestSpotDist`, `readSpeeches`) and reports the narration event
fired, if any. -/
def stepState (st : Option JSNum × Finset String) (u : AppUpdate) :
    (Option JSNum × Finset String) × Option String :=
  let r := runProximityEffect u.userGeo u.data u.userPixel u.transform st.1 st.2
  ((r.nearestSpotDist, r.readSpeeches), r.fired)

/-- The list of narration events fired along a sequence of updates. -/
def sessionTrace : List AppUpdate → (Option JSNum × Finset String) →
    List (Option String)
  | [], _ => []
  | u :: us, st => (stepState st u).2 :: sessionTrace us (stepState st u).1

/-- The session state after a sequence of updates. -/
def sessionFinal : List AppUpdate → (Option JSNum × Finset String) →
    Option JSNum × Finset String
  | [], st => st
  | u :: us, st => sessionFinal us (stepState st u).1

/-- The `userDistance` prop wired into `SpotDetailModal`
(App.tsx lines 509-511): the raw pixel distance between the selected spot
and the user pixel, passed only when `selectedSpot && nearestSpotDist &&
userPixel` is truthy, and `null` otherwise. -/
def userDistanceProp (sel : Option Spot) (nsd : Option JSNum)
    (upx : Option PixelCoord) : Option ℝ :=
  match sel, nsd, upx with
  | some s, some d, some u =>
    if jsTruthy d then
      some (Real.sqrt ((s.pixel_x - u.x) ^ 2 + (s.pixel_y - u.y) ^ 2))
    else none
  | _, _, _ => none

/-- Predicate `isNear` in SpotDetailModal.tsx line 25:
`userDistance !== null && userDistance < 30`. -/
def isNear (userDistance : Option ℝ) : Prop :=
  match userDistance with
  | some d => d < 30
  | none => False

/-- Modelled from the spec: the real-valued distance estimate
`pixelDistance(visitor, poi) * metersPerPixel` described in section 4.5,
used as the reference value against which the code is compared. -/
def spotDistReal (up : PixelCoord) (p1 p2 : CalibrationPoint) (s : Spot) : ℝ :=
  Real.sqrt ((up.x - s.pixel_x) * (up.x - s.pixel_x) +
      (up.y - s.pixel_y) * (up.y - s.pixel_y)) *
    (getDistanceMeters ⟨p1.lat, p1.lng⟩ ⟨p2.lat, p2.lng⟩ / pixelsBetween p1 p2)

/-- Modelled from the spec: "first point of interest encountered with the
strictly smallest distance wins" (section 4.5).  Returns the earliest
element attaining the minimum of `f`. -/
def firstMinBy (f : Spot → ℝ) : List Spot → Option Spot
  | [] => none
  | s :: t =>
    match firstMinBy f t with
    | none => some s
    | some m => if f s ≤ f m then some s else some m

/-- Degenerate scale input (spec section 4.4): fewer than two calibration
points, or first two sharing identical pixel coordinates. -/
def scaleDegenerate (cp : List CalibrationPoint) : Prop :=
  match cp with
  | p1 :: p2 :: _ => p1.pixel_x = p2.pixel_x ∧ p1.pixel_y = p2.pixel_y
  | _ => True

/-! ### Concrete instances used as witnesses

Calibration points are `⟨id, pixel_x, pixel_y, lat, lng⟩`; spots are
`⟨id, name, desc, speech_text, pixel_x, pixel_y, has_mission, type⟩`. -/

/-- The identity transform, produced by the basis calibration below. -/
def wT : AffineTransform := ⟨1, 0, 0, 0, 1, 0⟩

def wp1 : CalibrationPoint := ⟨1, 0, 0, 0, 0⟩

def wp2 : CalibrationPoint := ⟨2, 1, 0, 1, 0⟩

def wp3 : CalibrationPoint := ⟨3, 0, 1, 0, 1⟩

def wq : CalibrationPoint := ⟨4, 7, 7, 5, 5⟩

/-- Three calibration points sharing the same latitude (collinear). -/
def cl1 : CalibrationPoint := ⟨1, 0, 0, 0, 0⟩

def cl2 : CalibrationPoint := ⟨2, 1, 0, 0, 1⟩

def cl3 : CalibrationPoint := ⟨3, 2, 0, 0, 2⟩

/-- Two calibration points at the same geographic position (distance 0
meters) but 100 pixels apart: meters-per-pixel is exactly 0. -/
def wc1 : CalibrationPoint := ⟨1, 0, 0, 0, 0⟩

def wc2 : CalibrationPoint := ⟨2, 100, 0, 0, 0⟩

/-- The id of the witness spot below. -/
def wid : String := "s1"

/-- A mission spot with narration text at pixel (3, 4). -/
def wspot : Spot := ⟨wid, "spot one", "", some ("hello"), 3, 4, true, .scenery⟩

def wdata : AppData := ⟨[wc1, wc2], [wspot]⟩

def wg : Coord := ⟨0, 0⟩

def wup : PixelCoord := ⟨0, 0⟩

def wu : AppUpdate := ⟨some wg, some wdata, some wup, some wT⟩

/-- A second calibration point sharing pixel (0, 0) with `wc1` but at a
different geographic position: degenerate pixel scale. -/
def dc2 : CalibrationPoint := ⟨2, 0, 0, 5, 5⟩

def ddata : AppData := ⟨[wc1, dc2], [wspot]⟩

/-- Antipodal calibration pair: geographic distance is 6371e3·π meters
and pixel distance is 6371000 pixels, so meters-per-pixel is exactly π. -/
def mc1 : CalibrationPoint := ⟨1, 0, 0, 0, 0⟩

def mc2 : CalibrationPoint := ⟨2, 6371000, 0, 0, 180⟩

/-- A mission spot whose pixel distance from the origin is 30/π, hence
whose scale-converted real-world distance is exactly 30 meters. -/
def mspot : Spot := ⟨"m1", "mission spot", "", none, 30 / Real.pi, 0, true, .facility⟩

def mdata : AppData := ⟨[mc1, mc2], [mspot]⟩

/-- Spots at pixel distances 10, 5 and 5 from the origin. -/
def na : Spot := ⟨"a", "a", "", none, 10, 0, false, .facility⟩

def nb : Spot := ⟨"b", "b", "", none, 3, 4, false, .facility⟩

def nc : Spot := ⟨"c", "c", "", none, 0, 5, false, .facility⟩

end

/-! ### Helper lemmas -/

lemma sqrt_of_sq (a b : ℝ) (hb : 0 ≤ b) (h : a = b ^ 2) : Real.sqrt a = b := by
  rw [h, Real.sqrt_sq hb]

lemma hav_core (la1 la2 t : ℝ) :
    0 ≤ Real.sin ((la2 - la1) * Real.pi / 180 / 2) *
          Real.sin ((la2 - la1) * Real.pi / 180 / 2) +
        Real.cos (la1 * Real.pi / 180) * Real.cos (la2 * Real.pi / 180) *
          Real.sin t * Real.sin t ∧
    Real.sin ((la2 - la1) * Real.pi / 180 / 2) *
        Real.sin ((la2 - la1) * Real.pi / 180 / 2) +
      Real.cos (la1 * Real.pi / 180) * Real.cos (la2 * Real.pi / 180) *
        Real.sin t * Real.sin t ≤ 1 := by
  set x := la1 * Real.pi / 180 with hxd
  set y := la2 * Real.pi / 180 with hyd
  have harg : (la2 - la1) * Real.pi / 180 / 2 = (y - x) / 2 := by
    rw [hxd, hyd]; ring
  rw [harg]
  set s := Real.sin ((y - x) / 2) with hsd
  set u := Real.sin t with hud
  set c := Real.cos (x + y) with hcd
  have hs2 : s ^ 2 ≤ 1 := Real.sin_sq_le_one _
  have hu2 : u ^ 2 ≤ 1 := Real.sin_sq_le_one _
  have hc1 : -1 ≤ c := Real.neg_one_le_cos _
  have hc2 : c ≤ 1 := Real.cos_le_one _
  have h1 : Real.cos (y - x) = 1 - 2 * s ^ 2 := by
    have h2 := Real.cos_two_mul ((y - x) / 2)
    have h3 : 2 * ((y - x) / 2) = y - x := by ring
    rw [h3] at h2
    rw [h2, Real.cos_sq']
    ring
  have hprod : Real.cos x * Real.cos y = (1 - 2 * s ^ 2 + c) / 2 := by
    have hadd := Real.cos_add x y
    have hsub := Real.cos_sub y x
    rw [h1] at hsub
    linear_combination (- hsub - hadd) / 2
  rw [hprod]
  constructor
  · have hp1 : 0 ≤ s ^ 2 * (1 - u ^ 2) :=
      mul_nonneg (sq_nonneg s) (by linarith)
    have hp2 : 0 ≤ (1 + c) * u ^ 2 :=
      mul_nonneg (by linarith) (sq_nonneg u)
    nlinarith [hp1, hp2]
  · have hp3 : 0 ≤ (1 - u ^ 2) * (1 - s ^ 2) :=
      mul_nonneg (by linarith) (by linarith)
    have hp4 : 0 ≤ (1 - c) * u ^ 2 :=
      mul_nonneg (by linarith) (sq_nonneg u)
    nlinarith [hp3, hp4]

lemma haversineIntermediate_bounds (c1 c2 : Coord) :
    0 ≤ haversineIntermediate c1 c2 ∧ haversineIntermediate c1 c2 ≤ 1 := by
  simp only [haversineIntermediate]
  exact hav_core c1.lat c2.lat ((c2.lng - c1.lng) * Real.pi / 180 / 2)

lemma jsAtan2_nonneg (y x : ℝ) (hy : 0 ≤ y) (hx : 0 ≤ x) : 0 ≤ jsAtan2 y x := by
  unfold jsAtan2
  by_cases h1 : x > 0
  · rw [if_pos h1]
    have h0 : (0:ℝ) ≤ y / x := div_nonneg hy h1.le
    calc (0:ℝ) = Real.arctan 0 := Real.arctan_zero.symm
      _ ≤ Real.arctan (y / x) := Real.arctan_strictMono.monotone h0
  · rw [if_neg h1, if_neg (not_lt.mpr hx)]
    by_cases h3 : y > 0
    · rw [if_pos h3]
      positivity
    · rw [if_neg h3, if_neg (not_lt.mpr hy)]

lemma getDistanceMeters_nonneg (c1 c2 : Coord) : 0 ≤ getDistanceMeters c1 c2 := by
  simp only [getDistanceMeters]
  have h := jsAtan2_nonneg (Real.sqrt (haversineIntermediate c1 c2))
    (Real.sqrt (1 - haversineIntermediate c1 c2))
    (Real.sqrt_nonneg _) (Real.sqrt_nonneg _)
  have h2 : (0:ℝ) ≤ 2 * jsAtan2 (Real.sqrt (haversineIntermediate c1 c2))
      (Real.sqrt (1 - haversineIntermediate c1 c2)) := by linarith
  exact mul_nonneg (by norm_num) h2

lemma getDistanceMeters_self (c : Coord) : getDistanceMeters c c = 0 := by
  simp only [getDistanceMeters, haversineIntermediate, jsAtan2]
  norm_num

lemma getDistanceMeters_comm (a b : Coord) :
    getDistanceMeters a b = getDistanceMeters b a := by
  have hI : haversineIntermediate a b = haversineIntermediate b a := by
    simp only [haversineIntermediate]
    have h1 : ∀ u v : ℝ,
        (u - v) * Real.pi / 180 / 2 = -((v - u) * Real.pi / 180 / 2) := by
      intro u v; ring
    rw [h1 b.lat a.lat, h1 b.lng a.lng, Real.sin_neg, Real.sin_neg]
    ring
  simp only [getDistanceMeters]
  rw [hI]

/-! ### Claims about the affine solver (geo.ts) -/

/-- Claim C1: for every sequence of calibration points on which
`getAffineTransform` returns a (non-null) transform — in particular for 3
non-collinear points — applying `latLngToPixel` to each of the first three
points' geographic positions reproduces that point's stored pixel
position exactly (over the reals). -/
theorem affine_roundtrip_first_three (p1 p2 p3 : CalibrationPoint)
    (rest : List CalibrationPoint) (T : AffineTransform)
    (h : getAffineTransform (p1 :: p2 :: p3 :: rest) = some T) :
    latLngToPixel p1.lat p1.lng (some T) = some ⟨p1.pixel_x, p1.pixel_y⟩ ∧
    latLngToPixel p2.lat p2.lng (some T) = some ⟨p2.pixel_x, p2.pixel_y⟩ ∧
    latLngToPixel p3.lat p3.lng (some T) = some ⟨p3.pixel_x, p3.pixel_y⟩ := by
  simp only [getAffineTransform] at h
  by_cases hd : |calibDet p1 p2 p3| < 1e-9
  · rw [if_pos hd] at h
    exact absurd h (by simp)
  · rw [if_neg hd] at h
    have hdet : calibDet p1 p2 p3 ≠ 0 := by
      intro h0
      rw [h0] at hd
      simp only [abs_zero] at hd
      exact hd (by norm_num)
    have hdet' : p1.lat * (p2.lng - p3.lng) + p2.lat * (p3.lng - p1.lng) +
        p3.lat * (p1.lng - p2.lng) ≠ 0 := by simpa [calibDet] using hdet
    rw [Option.some.injEq] at h
    subst h
    refine ⟨?_, ?_, ?_⟩ <;>
      simp only [latLngToPixel, calibDet, Option.some.injEq,
        PixelCoord.mk.injEq] <;>
      constructor <;>
      · field_simp
        ring

/-- Witness for C1: the basis calibration (geo (0,0)↦pixel (0,0),
(1,0)↦(1,0), (0,1)↦(0,1)) yields the identity transform and the
round-trip identity holds at the first point. -/
theorem affine_roundtrip_witness :
    getAffineTransform [wp1, wp2, wp3] = some wT ∧
    latLngToPixel wp1.lat wp1.lng (some wT) = some ⟨wp1.pixel_x, wp1.pixel_y⟩ := by
  have hEq : getAffineTransform [wp1, wp2, wp3] = some wT := by
    simp only [getAffineTransform, calibDet, wp1, wp2, wp3, wT]
    norm_num
  exact ⟨hEq, (affine_roundtrip_first_three wp1 wp2 wp3 [] wT hEq).1⟩

/-- Claim C2: `getAffineTransform` returns null exactly on degenerate
input — always for fewer than 3 points, and for 3 or more points exactly
when the determinant of the first three satisfies `|det| < 1e-9`. -/
theorem getAffineTransform_none_iff_degenerate :
    (∀ pts : List CalibrationPoint, pts.length < 3 →
      getAffineTransform pts = none) ∧
    (∀ (p1 p2 p3 : CalibrationPoint) (rest : List CalibrationPoint),
      getAffineTransform (p1 :: p2 :: p3 :: rest) = none ↔
        |calibDet p1 p2 p3| < 1e-9) := by
  constructor
  · intro pts h
    rcases pts with _ | ⟨a, _ | ⟨b, _ | ⟨c, rest⟩⟩⟩
    · rfl
    · rfl
    · rfl
    · simp at h
      omega
  · intro p1 p2 p3 rest
    simp only [getAffineTransform]
    by_cases hd : |calibDet p1 p2 p3| < 1e-9
    · rw [if_pos hd]
      simp [hd]
    · rw [if_neg hd]
      simp [hd]

/-- Witness for C2: a single point gives null, and three points sharing
latitude 0 are collinear (determinant 0) and also give null. -/
theorem getAffineTransform_none_iff_degenerate_witness :
    (([wp1] : List CalibrationPoint).length < 3 ∧
      getAffineTransform [wp1] = none) ∧
    (|calibDet cl1 cl2 cl3| < 1e-9 ∧
      getAffineTransform [cl1, cl2, cl3] = none) := by
  have h1 : ([wp1] : List CalibrationPoint).length < 3 := by norm_num
  have h2 : |calibDet cl1 cl2 cl3| < 1e-9 := by
    simp only [calibDet, cl1, cl2, cl3]
    norm_num
  exact ⟨⟨h1, getAffineTransform_none_iff_degenerate.1 [wp1] h1⟩,
    ⟨h2, (getAffineTransform_none_iff_degenerate.2 cl1 cl2 cl3 []).mpr h2⟩⟩

/-- Claim C8: for 3 or more calibration points the solver depends only on
the first three: `getAffineTransform pts = getAffineTransform (pts.take 3)`. -/
theorem solver_uses_first_three_points (pts : List CalibrationPoint)
    (h : 3 ≤ pts.length) :
    getAffineTransform pts = getAffineTransform (pts.take 3) := by
  rcases pts with _ | ⟨a, _ | ⟨b, _ | ⟨c, rest⟩⟩⟩
  · simp at h
  · simp at h
  · simp at h
  · rfl

/-- Witness for C8 on a concrete 4-point list. -/
theorem solver_uses_first_three_points_witness :
    3 ≤ ([wp1, wp2, wp3, wq] : List CalibrationPoint).length ∧
    getAffineTransform [wp1, wp2, wp3, wq] =
      getAffineTransform ([wp1, wp2, wp3, wq].take 3) :=
  ⟨by norm_num, solver_uses_first_three_points _ (by norm_num)⟩

/-! ### Claims about the haversine distance (geo.ts) -/

/-- Claim C4: for every pair of coordinates the haversine intermediate of
`getDistanceMeters` lies in [0, 1], so both square roots receive
nonnegative arguments, the inverse-trig step is well defined and the
result is a genuine (nonnegative) real number — never NaN.  In exact real
arithmetic the intermediate never leaves [0, 1], so the clamp described
by the spec is the identity on it. -/
theorem haversine_intermediate_safe (c1 c2 : Coord) :
    0 ≤ haversineIntermediate c1 c2 ∧ haversineIntermediate c1 c2 ≤ 1 ∧
    0 ≤ 1 - haversineIntermediate c1 c2 ∧ 0 ≤ getDistanceMeters c1 c2 := by
  obtain ⟨h1, h2⟩ := haversineIntermediate_bounds c1 c2
  exact ⟨h1, h2, by linarith, getDistanceMeters_nonneg c1 c2⟩

/-- Claim C9: `getDistanceMeters` vanishes on identical inputs and is
symmetric in its two arguments. -/
theorem distance_symm_and_self_zero (a b : Coord) :
    getDistanceMeters a a = 0 ∧
    getDistanceMeters a b = getDistanceMeters b a :=
  ⟨getDistanceMeters_self a, getDistanceMeters_comm a b⟩

/-! ### Proximity-fold lemmas -/

lemma foldl_fixed {α β : Type} (g : β → α → β) (l : List α) (acc : β)
    (h : ∀ b a, g b a = b) : l.foldl g acc = acc := by
  induction l generalizing acc with
  | nil => rfl
  | cons a t ih => rw [List.foldl_cons, h, ih]

lemma proxStep_degenerate (upx : Option PixelCoord) (tr : Option AffineTransform)
    (cp : List CalibrationPoint) (hdeg : scaleDegenerate cp)
    (acc : JSNum × Option Spot) (s : Spot) :
    proxStep upx tr cp acc s = acc := by
  rcases upx with _ | up
  · rcases tr with _ | t <;> rfl
  rcases tr with _ | t
  · rfl
  rcases cp with _ | ⟨p1, _ | ⟨p2, rest⟩⟩
  · rfl
  · rfl
  obtain ⟨hx, hy⟩ := hdeg
  have hpix : pixelsBetween p1 p2 = 0 := by
    simp [pixelsBetween, hx, hy, sub_self]
  have hdm : 0 ≤ getDistanceMeters ⟨p1.lat, p1.lng⟩ ⟨p2.lat, p2.lng⟩ :=
    getDistanceMeters_nonneg _ _
  have hnot : ¬ jsLt (spotDistM up p1 p2 s) acc.1 := by
    simp only [spotDistM, hpix, jsDiv]
    rw [if_neg (by norm_num : ¬ (0:ℝ) ≠ 0)]
    by_cases hd0 : getDistanceMeters ⟨p1.lat, p1.lng⟩ ⟨p2.lat, p2.lng⟩ > 0
    · rw [if_pos hd0]
      simp only [jsMulFin]
      by_cases hpd : Real.sqrt ((up.x - s.pixel_x) * (up.x - s.pixel_x) +
          (up.y - s.pixel_y) * (up.y - s.pixel_y)) > 0
      · rw [if_pos hpd]
        cases acc.1 <;> simp [jsLt]
      · rw [if_neg hpd, if_neg (not_lt.mpr (Real.sqrt_nonneg _))]
        cases acc.1 <;> simp [jsLt]
    · rw [if_neg hd0, if_neg (not_lt.mpr hdm)]
      simp only [jsMulFin]
      cases acc.1 <;> simp [jsLt]
  simp only [proxStep]
  rw [if_neg hnot]

lemma spotDistM_of_scale (up : PixelCoord) (p1 p2 : CalibrationPoint) (s : Spot)
    (h : pixelsBetween p1 p2 ≠ 0) :
    spotDistM up p1 p2 s = .fin (spotDistReal up p1 p2 s) := by
  simp only [spotDistM, jsDiv, if_pos h, jsMulFin, spotDistReal]

lemma foldl_proxStep_spec (up : PixelCoord) (tr : AffineTransform)
    (p1 p2 : CalibrationPoint) (rest : List CalibrationPoint)
    (h : pixelsBetween p1 p2 ≠ 0) :
    ∀ (t : List Spot) (r : ℝ) (o : Option Spot),
      t.foldl (proxStep (some up) (some tr) (p1 :: p2 :: rest)) (.fin r, o) =
        match firstMinBy (spotDistReal up p1 p2) t with
        | none => (.fin r, o)
        | some m =>
          if spotDistReal up p1 p2 m < r then
            (.fin (spotDistReal up p1 p2 m), some m)
          else (.fin r, o) := by
  intro t
  induction t with
  | nil => intro r o; rfl
  | cons s t ih =>
    intro r o
    rw [List.foldl_cons]
    have hstep : proxStep (some up) (some tr) (p1 :: p2 :: rest) (.fin r, o) s =
        if spotDistReal up p1 p2 s < r then
          (.fin (spotDistReal up p1 p2 s), some s)
        else (.fin r, o) := by
      simp only [proxStep]
      rw [spotDistM_of_scale up p1 p2 s h]
      by_cases hc : spotDistReal up p1 p2 s < r
      · rw [if_pos hc,
          if_pos (show jsLt (.fin (spotDistReal up p1 p2 s)) (.fin r) from hc)]
      · rw [if_neg hc,
          if_neg (show ¬ jsLt (.fin (spotDistReal up p1 p2 s)) (.fin r) from hc)]
    rw [hstep]
    by_cases hc : spotDistReal up p1 p2 s < r
    · rw [if_pos hc, ih (spotDistReal up p1 p2 s) (some s)]
      simp only [firstMinBy]
      cases hm : firstMinBy (spotDistReal up p1 p2) t with
      | none =>
        dsimp only
        rw [if_pos hc]
      | some m =>
        dsimp only
        by_cases hsm : spotDistReal up p1 p2 s ≤ spotDistReal up p1 p2 m
        · rw [if_pos hsm]
          dsimp only
          rw [if_pos hc, if_neg (not_lt.mpr hsm)]
        · push_neg at hsm
          rw [if_neg (not_le.mpr hsm)]
          dsimp only
          rw [if_pos hsm, if_pos (lt_trans hsm hc)]
    · rw [if_neg hc, ih r o]
      push_neg at hc
      simp only [firstMinBy]
      cases hm : firstMinBy (spotDistReal up p1 p2) t with
      | none =>
        dsimp only
        rw [if_neg (not_lt.mpr hc)]
      | some m =>
        dsimp only
        by_cases hsm : spotDistReal up p1 p2 s ≤ spotDistReal up p1 p2 m
        · rw [if_pos hsm]
          dsimp only
          rw [if_neg (not_lt.mpr hc), if_neg (not_lt.mpr (le_trans hc hsm))]
        · rw [if_neg hsm]

/-! ### Claim C5: degenerate scale -/

/-- Claim C5: whenever the first two calibration points coincide in pixel
space (or fewer than 2 calibration points exist), the proximity loop
never updates its accumulator — the IEEE Infinity/NaN produced by the
unguarded division never satisfies `<` — so the evaluation reports no
nearest point (`nearestSpotDist` is null) rather than a number or an
error. -/
theorem degenerate_scale_no_nearest (g : Coord) (d : AppData)
    (upx : Option PixelCoord) (tr : Option AffineTransform)
    (n0 : Option JSNum) (rs : Finset String)
    (hdeg : scaleDegenerate d.calibration_points) :
    proxFold upx tr d = (JSNum.inf, none) ∧
    (runProximityEffect (some g) (some d) upx tr n0 rs).nearestSpotDist =
      none := by
  have hfold : proxFold upx tr d = (JSNum.inf, none) := by
    unfold proxFold
    exact foldl_fixed _ _ _ (fun b a => proxStep_degenerate upx tr _ hdeg b a)
  refine ⟨hfold, ?_⟩
  simp only [runProximityEffect]
  rw [hfold]

/-- Witness for C5: two calibration points at the same pixel (0,0) but
different geographic positions; with one spot present the effect still
reports no nearest distance. -/
theorem degenerate_scale_no_nearest_witness :
    scaleDegenerate ddata.calibration_points ∧
    (runProximityEffect (some wg) (some ddata) (some wup) (some wT)
      none ∅).nearestSpotDist = none := by
  have hdeg : scaleDegenerate ddata.calibration_points := by
    simp [scaleDegenerate, ddata, wc1, dc2]
  exact ⟨hdeg,
    (degenerate_scale_no_nearest wg ddata (some wup) (some wT) none ∅ hdeg).2⟩

/-! ### Claim C7: first-minimum selection -/

/-- Claim C7: with a usable scale (first two calibration points at
distinct pixels) and the user pixel and transform available, the
proximity loop selects exactly the first spot (in insertion order)
attaining the smallest distance — `firstMinBy` of the per-spot distance,
which keeps the earlier spot on exact ties. -/
theorem nearest_selects_first_minimum (up : PixelCoord) (tr : AffineTransform)
    (p1 p2 : CalibrationPoint) (rest : List CalibrationPoint)
    (spots : List Spot) (h : pixelsBetween p1 p2 ≠ 0) :
    (proxFold (some up) (some tr) ⟨p1 :: p2 :: rest, spots⟩).2 =
      firstMinBy (spotDistReal up p1 p2) spots := by
  unfold proxFold
  dsimp only
  cases spots with
  | nil => rfl
  | cons s t =>
    rw [List.foldl_cons]
    have hstep : proxStep (some up) (some tr) (p1 :: p2 :: rest)
        (JSNum.inf, none) s = (.fin (spotDistReal up p1 p2 s), some s) := by
      simp only [proxStep]
      rw [spotDistM_of_scale up p1 p2 s h]
      rw [if_pos (show jsLt (.fin (spotDistReal up p1 p2 s)) .inf from trivial)]
    rw [hstep, foldl_proxStep_spec up tr p1 p2 rest h t]
    simp only [firstMinBy]
    cases hm : firstMinBy (spotDistReal up p1 p2) t with
    | none => rfl
    | some m =>
      dsimp only
      by_cases hsm : spotDistReal up p1 p2 s ≤ spotDistReal up p1 p2 m
      · rw [if_pos hsm, if_neg (not_lt.mpr hsm)]
      · push_neg at hsm
        rw [if_neg (not_le.mpr hsm), if_pos hsm]

lemma hav_antipodal : haversineIntermediate ⟨0, 0⟩ ⟨0, 180⟩ = 1 := by
  simp only [haversineIntermediate]
  rw [show ((0:ℝ) - 0) * Real.pi / 180 / 2 = 0 by ring]
  rw [show ((180:ℝ) - 0) * Real.pi / 180 / 2 = Real.pi / 2 by ring]
  rw [show (0:ℝ) * Real.pi / 180 = 0 by ring]
  rw [Real.sin_zero, Real.cos_zero, Real.sin_pi_div_two]
  norm_num

lemma jsAtan2_one_zero : jsAtan2 1 0 = Real.pi / 2 := by
  unfold jsAtan2
  rw [if_neg (by norm_num : ¬ (0:ℝ) > 0), if_neg (by norm_num : ¬ (0:ℝ) < 0),
    if_pos (by norm_num : (1:ℝ) > 0)]

/-- Geographic distance between (0°,0°) and (0°,180°): half the Earth
circumference, exactly 6371e3·π meters in the real-number model. -/
lemma getDistanceMeters_antipodal :
    getDistanceMeters ⟨0, 0⟩ ⟨0, 180⟩ = 6371e3 * Real.pi := by
  simp only [getDistanceMeters]
  rw [hav_antipodal]
  norm_num [Real.sqrt_one]
  rw [jsAtan2_one_zero]
  ring

lemma pixelsBetween_mc : pixelsBetween mc1 mc2 = 6371000 := by
  simp only [pixelsBetween, mc1, mc2]
  exact sqrt_of_sq _ 6371000 (by norm_num) (by norm_num)

/-- The meters-per-pixel ratio of the antipodal calibration pair is π. -/
lemma mratio : getDistanceMeters ⟨mc1.lat, mc1.lng⟩ ⟨mc2.lat, mc2.lng⟩ /
    pixelsBetween mc1 mc2 = Real.pi := by
  have h1 : getDistanceMeters ⟨mc1.lat, mc1.lng⟩ ⟨mc2.lat, mc2.lng⟩ =
      6371e3 * Real.pi := getDistanceMeters_antipodal
  rw [h1, pixelsBetween_mc, show (6371e3:ℝ) = 6371000 by norm_num]
  field_simp

lemma mdistReal_na : spotDistReal wup mc1 mc2 na = 10 * Real.pi := by
  simp only [spotDistReal, wup, na]
  rw [mratio]
  rw [show ((0:ℝ) - 10) * ((0:ℝ) - 10) + ((0:ℝ) - 0) * ((0:ℝ) - 0) = 10 ^ 2
    by norm_num]
  rw [Real.sqrt_sq (by norm_num : (0:ℝ) ≤ 10)]

lemma mdistReal_nb : spotDistReal wup mc1 mc2 nb = 5 * Real.pi := by
  simp only [spotDistReal, wup, nb]
  rw [mratio]
  rw [show ((0:ℝ) - 3) * ((0:ℝ) - 3) + ((0:ℝ) - 4) * ((0:ℝ) - 4) = 5 ^ 2
    by norm_num]
  rw [Real.sqrt_sq (by norm_num : (0:ℝ) ≤ 5)]

lemma mdistReal_nc : spotDistReal wup mc1 mc2 nc = 5 * Real.pi := by
  simp only [spotDistReal, wup, nc]
  rw [mratio]
  rw [show ((0:ℝ) - 0) * ((0:ℝ) - 0) + ((0:ℝ) - 5) * ((0:ℝ) - 5) = 5 ^ 2
    by norm_num]
  rw [Real.sqrt_sq (by norm_num : (0:ℝ) ≤ 5)]

/-- Witness for C7: spots at pixel distances 10, 5, 5 (scale π
meters/pixel): the loop selects the second spot, the first occurrence of
the minimum. -/
theorem nearest_selects_first_minimum_witness :
    pixelsBetween mc1 mc2 ≠ 0 ∧
    (proxFold (some wup) (some wT) ⟨[mc1, mc2], [na, nb, nc]⟩).2 = some nb := by
  have hne : pixelsBetween mc1 mc2 ≠ 0 := by
    rw [pixelsBetween_mc]
    norm_num
  have hmin : firstMinBy (spotDistReal wup mc1 mc2) [na, nb, nc] = some nb := by
    simp only [firstMinBy, mdistReal_nb, mdistReal_nc]
    rw [if_pos (le_refl (5 * Real.pi))]
    dsimp only
    rw [mdistReal_na, mdistReal_nb]
    rw [if_neg (show ¬ (10 * Real.pi ≤ 5 * Real.pi) by nlinarith [Real.pi_pos])]
  have h := nearest_selects_first_minimum wup wT mc1 mc2 [] [na, nb, nc] hne
  exact ⟨hne, h.trans hmin⟩

/-! ### Claim C6: narration fires once per spot per session -/

lemma stepState_spec (st : Option JSNum × Finset String) (u : AppUpdate) :
    st.2 ⊆ (stepState st u).1.2 ∧
    ((stepState st u).2 = none → (stepState st u).1.2 = st.2) ∧
    (∀ id, (stepState st u).2 = some id →
      fireEligible u id ∧ id ∉ st.2 ∧ (stepState st u).1.2 = insert id st.2) ∧
    (∀ id, fireEligible u id → id ∉ st.2 → (stepState st u).2 = some id) := by
  rcases u with ⟨ug, dt, upx, tr⟩
  rcases ug with _ | g
  · refine ⟨subset_rfl, fun _ => rfl, ?_, ?_⟩
    · intro id h
      simp [stepState, runProximityEffect] at h
    · intro id helig _
      obtain ⟨s, hs, -, -, -⟩ := helig
      simp [proxResult] at hs
  rcases dt with _ | d
  · refine ⟨subset_rfl, fun _ => rfl, ?_, ?_⟩
    · intro id h
      simp [stepState, runProximityEffect] at h
    · intro id helig _
      obtain ⟨s, hs, -, -, -⟩ := helig
      simp [proxResult] at hs
  have hpr : proxResult ⟨some g, some d, upx, tr⟩ = proxFold upx tr d := rfl
  simp only [stepState, runProximityEffect]
  cases hr2 : (proxFold upx tr d).2 with
  | none =>
    dsimp only
    refine ⟨subset_rfl, fun _ => rfl, ?_, ?_⟩
    · intro id h
      simp at h
    · intro id helig hid
      obtain ⟨s, hs, -, -, -⟩ := helig
      rw [hpr, hr2] at hs
      simp at hs
  | some s =>
    dsimp only
    by_cases hcond : jsLt (proxFold upx tr d).1 (.fin AUTO_SPEECH_DISTANCE) ∧
        s.id ∉ st.2 ∧ speechTruthy s.speech_text
    · rw [if_pos hcond]
      dsimp only
      refine ⟨Finset.subset_insert _ _, ?_, ?_, ?_⟩
      · intro h
        simp at h
      · intro id h
        rw [Option.some.injEq] at h
        subst h
        exact ⟨⟨s, by rw [hpr, hr2], rfl, by rw [hpr]; exact hcond.1,
          hcond.2.2⟩, hcond.2.1, rfl⟩
      · intro id helig hid
        obtain ⟨s', hs', hsid, -, -⟩ := helig
        rw [hpr, hr2, Option.some.injEq] at hs'
        subst hs'
        rw [hsid]
    · rw [if_neg hcond]
      dsimp only
      refine ⟨subset_rfl, fun _ => rfl, ?_, ?_⟩
      · intro id h
        simp at h
      · intro id helig hid
        obtain ⟨s', hs', hsid, hlt, htr⟩ := helig
        rw [hpr, hr2, Option.some.injEq] at hs'
        subst hs'
        exfalso
        apply hcond
        refine ⟨?_, ?_, htr⟩
        · rw [hpr] at hlt
          exact hlt
        · rw [hsid]
          exact hid

lemma sessionFinal_mono (us : List AppUpdate)
    (st : Option JSNum × Finset String) : st.2 ⊆ (sessionFinal us st).2 := by
  induction us generalizing st with
  | nil => exact subset_rfl
  | cons u us ih =>
    exact (stepState_spec st u).1.trans (ih ((stepState st u).1))

lemma sessionFinal_append (us1 us2 : List AppUpdate)
    (st : Option JSNum × Finset String) :
    sessionFinal (us1 ++ us2) st = sessionFinal us2 (sessionFinal us1 st) := by
  induction us1 generalizing st with
  | nil => rfl
  | cons u us ih =>
    simp only [List.cons_append, sessionFinal]
    exact ih _

lemma trace_no_fire_of_mem (us : List AppUpdate)
    (st : Option JSNum × Finset String) (id : String) (h : id ∈ st.2) :
    ∀ i, (sessionTrace us st).get? i ≠ some (some id) := by
  induction us generalizing st with
  | nil =>
    intro i
    simp [sessionTrace]
  | cons u us ih =>
    intro i
    cases i with
    | zero =>
      simp only [sessionTrace, List.get?_cons_zero]
      intro hc
      rw [Option.some.injEq] at hc
      exact absurd h ((stepState_spec st u).2.2.1 id hc).2.1
    | succ n =>
      simp only [sessionTrace, List.get?_cons_succ]
      exact ih ((stepState st u).1) ((stepState_spec st u).1 h) n

lemma trace_fire_unique (us : List AppUpdate)
    (st : Option JSNum × Finset String) (id : String) :
    ∀ i j, (sessionTrace us st).get? i = some (some id) →
      (sessionTrace us st).get? j = some (some id) → i = j := by
  induction us generalizing st with
  | nil =>
    intro i j hi _
    simp [sessionTrace] at hi
  | cons u us ih =>
    intro i j hi hj
    cases i with
    | zero =>
      cases j with
      | zero => rfl
      | succ m =>
        exfalso
        simp only [sessionTrace, List.get?_cons_zero] at hi
        simp only [sessionTrace, List.get?_cons_succ] at hj
        rw [Option.some.injEq] at hi
        have hmem : id ∈ (stepState st u).1.2 := by
          rw [((stepState_spec st u).2.2.1 id hi).2.2]
          exact Finset.mem_insert_self _ _
        exact trace_no_fire_of_mem us _ id hmem m hj
    | succ n =>
      cases j with
      | zero =>
        exfalso
        simp only [sessionTrace, List.get?_cons_succ] at hi
        simp only [sessionTrace, List.get?_cons_zero] at hj
        rw [Option.some.injEq] at hj
        have hmem : id ∈ (stepState st u).1.2 := by
          rw [((stepState_spec st u).2.2.1 id hj).2.2]
          exact Finset.mem_insert_self _ _
        exact trace_no_fire_of_mem us _ id hmem n hi
      | succ m =>
        simp only [sessionTrace, List.get?_cons_succ] at hi hj
        exact congrArg Nat.succ (ih ((stepState st u).1) n m hi hj)

lemma trace_first_fire (us : List AppUpdate) (id : String) :
    ∀ (st : Option JSNum × Finset String) (i : ℕ) (u : AppUpdate),
      id ∉ st.2 → us.get? i = some u → fireEligible u id →
      (∀ (j : ℕ) (u' : AppUpdate), j < i → us.get? j = some u' →
        ¬ fireEligible u' id) →
      (sessionTrace us st).get? i = some (some id) := by
  induction us with
  | nil =>
    intro st i u _ hget
    simp at hget
  | cons u0 us ih =>
    intro st i u hid hget helig hmin
    cases i with
    | zero =>
      rw [List.get?_cons_zero, Option.some.injEq] at hget
      subst hget
      simp only [sessionTrace, List.get?_cons_zero]
      rw [(stepState_spec st u0).2.2.2 id helig hid]
    | succ n =>
      have h0 : ¬ fireEligible u0 id := hmin 0 u0 (Nat.succ_pos n) rfl
      have hid' : id ∉ (stepState st u0).1.2 := by
        intro hmem
        cases hf : (stepState st u0).2 with
        | none =>
          rw [(stepState_spec st u0).2.1 hf] at hmem
          exact hid hmem
        | some idf =>
          have h3 := (stepState_spec st u0).2.2.1 idf hf
          rw [h3.2.2] at hmem
          rcases Finset.mem_insert.mp hmem with h4 | h4
          · subst h4
            exact h0 h3.1
          · exact hid h4
      simp only [sessionTrace, List.get?_cons_succ]
      rw [List.get?_cons_succ] at hget
      exact ih ((stepState st u0).1) n u hid' hget helig
        (fun j u' hj hg => hmin (j + 1) u' (Nat.succ_lt_succ hj)
          (by rw [List.get?_cons_succ]; exact hg))

/-- Claim C6: starting from an empty narrated set, (1) the narration
event for a given spot id fires at most once across any sequence of
position updates (any two firing indices coincide); (2) the narrated set
is monotonic — entries are never removed as further updates arrive; and
(3) the event fires at the first update at which the spot is the nearest
one within 20 meters (with narration text), given that no earlier update
was eligible. -/
theorem narration_fires_once_per_spot (us : List AppUpdate)
    (n0 : Option JSNum) (id : String) :
    (∀ i j, (sessionTrace us (n0, ∅)).get? i = some (some id) →
      (sessionTrace us (n0, ∅)).get? j = some (some id) → i = j) ∧
    (∀ (us2 : List AppUpdate) (st : Option JSNum × Finset String),
      (sessionFinal us st).2 ⊆ (sessionFinal (us ++ us2) st).2) ∧
    (∀ (i : ℕ) (u : AppUpdate), us.get? i = some u → fireEligible u id →
      (∀ (j : ℕ) (u' : AppUpdate), j < i → us.get? j = some u' →
        ¬ fireEligible u' id) →
      (sessionTrace us (n0, ∅)).get? i = some (some id)) := by
  refine ⟨trace_fire_unique us (n0, ∅) id, ?_, ?_⟩
  · intro us2 st
    rw [sessionFinal_append]
    exact sessionFinal_mono us2 _
  · intro i u hget helig hmin
    exact trace_first_fire us id (n0, ∅) i u (by simp) hget helig hmin

lemma wspotDistM : spotDistM wup wc1 wc2 wspot = .fin 0 := by
  have hdm : getDistanceMeters ⟨wc1.lat, wc1.lng⟩ ⟨wc2.lat, wc2.lng⟩ = 0 :=
    getDistanceMeters_self ⟨0, 0⟩
  have hpx : pixelsBetween wc1 wc2 = 100 := by
    simp only [pixelsBetween, wc1, wc2]
    exact sqrt_of_sq _ 100 (by norm_num) (by norm_num)
  simp only [spotDistM, hdm, hpx]
  rw [show jsDiv 0 100 = JSNum.fin 0 by
    unfold jsDiv
    rw [if_pos (by norm_num : (100:ℝ) ≠ 0)]
    norm_num]
  simp only [jsMulFin, mul_zero]

lemma wfold : proxFold (some wup) (some wT) wdata = (.fin 0, some wspot) := by
  simp only [proxFold, wdata]
  rw [List.foldl_cons, List.foldl_nil]
  simp only [proxStep]
  rw [wspotDistM]
  rw [if_pos (show jsLt (JSNum.fin 0) JSNum.inf from trivial)]

lemma wrun_eligible : fireEligible wu wid := by
  refine ⟨wspot, ?_, rfl, ?_, ?_⟩
  · rw [show proxResult wu = proxFold (some wup) (some wT) wdata from rfl, wfold]
  · rw [show proxResult wu = proxFold (some wup) (some wT) wdata from rfl, wfold]
    show jsLt (JSNum.fin 0) (JSNum.fin AUTO_SPEECH_DISTANCE)
    show (0:ℝ) < AUTO_SPEECH_DISTANCE
    norm_num [AUTO_SPEECH_DISTANCE]
  · show speechTruthy wspot.speech_text
    simp [wspot, speechTruthy]

/-- Witness for C6: two identical updates placing the user 0 meters from
the narrated spot; the theorem yields that the event fires at the first
update. -/
theorem narration_fires_once_per_spot_witness :
    fireEligible wu wid ∧
    (sessionTrace [wu, wu] (none, ∅)).get? 0 = some (some wid) := by
  refine ⟨wrun_eligible, ?_⟩
  exact (narration_fires_once_per_spot [wu, wu] none wid).2.2 0 wu rfl
    wrun_eligible (fun j u' hj _ => absurd hj (Nat.not_lt_zero j))

/-! ### Claim C10: zero distance disables check-in -/

/-- Claim C10: when the proximity effect computes a nearest-spot distance
of exactly 0, the `selectedSpot && nearestSpotDist && userPixel` wiring
treats the 0 as falsy, so the detail view receives a null distance and
`isNear` is false — the spot is ineligible for check-in even though
0 < 30. -/
theorem zero_distance_checkin_gap (sel : Spot) (up : PixelCoord)
    (ug : Option Coord) (dt : Option AppData) (upx : Option PixelCoord)
    (tr : Option AffineTransform) (n0 : Option JSNum) (rs : Finset String)
    (h : (runProximityEffect ug dt upx tr n0 rs).nearestSpotDist =
      some (JSNum.fin 0)) :
    userDistanceProp (some sel)
      ((runProximityEffect ug dt upx tr n0 rs).nearestSpotDist) (some up) =
      none ∧
    ¬ isNear (userDistanceProp (some sel)
      ((runProximityEffect ug dt upx tr n0 rs).nearestSpotDist) (some up)) ∧
    (0:ℝ) < 30 := by
  rw [h]
  have hud : userDistanceProp (some sel) (some (JSNum.fin 0)) (some up) =
      none := by
    simp only [userDistanceProp]
    rw [if_neg (show ¬ jsTruthy (JSNum.fin 0) from fun hc => hc rfl)]
  refine ⟨hud, ?_, by norm_num⟩
  rw [hud]
  simp [isNear]

lemma wrun_nearest : (runProximityEffect (some wg) (some wdata) (some wup)
    (some wT) none ∅).nearestSpotDist = some (JSNum.fin 0) := by
  simp only [runProximityEffect]
  rw [wfold]
  dsimp only
  rw [if_pos (show jsLt (JSNum.fin 0) (JSNum.fin AUTO_SPEECH_DISTANCE) ∧
      wspot.id ∉ (∅ : Finset String) ∧ speechTruthy wspot.speech_text from
    ⟨show (0:ℝ) < AUTO_SPEECH_DISTANCE by norm_num [AUTO_SPEECH_DISTANCE],
     by simp, by simp [wspot, speechTruthy]⟩)]

/-- Witness for C10: the concrete zero-distance state (user exactly at
the mission spot under a zero meters-per-pixel scale) yields a null
distance prop. -/
theorem zero_distance_checkin_gap_witness :
    (runProximityEffect (some wg) (some wdata) (some wup) (some wT)
      none ∅).nearestSpotDist = some (JSNum.fin 0) ∧
    userDistanceProp (some wspot)
      ((runProximityEffect (some wg) (some wdata) (some wup) (some wT)
        none ∅).nearestSpotDist) (some wup) = none ∧
    wspot.has_mission = true := by
  have h := zero_distance_checkin_gap wspot wup (some wg) (some wdata)
    (some wup) (some wT) none ∅ wrun_nearest
  exact ⟨wrun_nearest, h.1, rfl⟩

/-! ### Claim C3: the check-in threshold compares pixels, not meters -/

lemma mdistReal_mspot : spotDistReal wup mc1 mc2 mspot = 30 := by
  simp only [spotDistReal, wup, mspot]
  rw [mratio]
  rw [show ((0:ℝ) - 30 / Real.pi) * ((0:ℝ) - 30 / Real.pi) +
      ((0:ℝ) - 0) * ((0:ℝ) - 0) = (30 / Real.pi) ^ 2 by ring]
  rw [Real.sqrt_sq (by positivity)]
  rw [div_mul_cancel₀ _ Real.pi_ne_zero]

lemma mfold : proxFold (some wup) (some wT) mdata = (.fin 30, some mspot) := by
  simp only [proxFold, mdata]
  rw [List.foldl_cons, List.foldl_nil]
  simp only [proxStep]
  rw [spotDistM_of_scale wup mc1 mc2 mspot
    (by rw [pixelsBetween_mc]; norm_num)]
  rw [mdistReal_mspot]
  rw [if_pos (show jsLt (JSNum.fin 30) JSNum.inf from trivial)]

lemma mrun_nearest : (runProximityEffect (some wg) (some mdata) (some wup)
    (some wT) none ∅).nearestSpotDist = some (JSNum.fin 30) := by
  simp only [runProximityEffect]
  rw [mfold]
  dsimp only
  rw [if_neg (show ¬ (jsLt (JSNum.fin 30) (JSNum.fin AUTO_SPEECH_DISTANCE) ∧
      mspot.id ∉ (∅ : Finset String) ∧ speechTruthy mspot.speech_text) from
    fun hc => absurd (show (30:ℝ) < AUTO_SPEECH_DISTANCE from hc.1)
      (by norm_num [AUTO_SPEECH_DISTANCE]))]

/-- Claim C3 (refuting the claim, supporting the modal's own contract):
in a concrete state whose meters-per-pixel scale is exactly π, the only
(mission) spot's scale-converted real-world distance is exactly 30 meters
— the proximity effect itself computes `nearestSpotDist = 30` — yet the
detail view receives the raw pixel distance 30/π (≈ 9.5), so `isNear`
holds and check-in is enabled.  The 30-threshold is applied to pixels,
not meters, contradicting the claimed "exactly 30 meters is ineligible". -/
theorem checkin_threshold_uses_pixels_not_meters :
    (runProximityEffect (some wg) (some mdata) (some wup) (some wT)
      none ∅).nearestSpotDist = some (JSNum.fin 30) ∧
    spotDistReal wup mc1 mc2 mspot = 30 ∧
    userDistanceProp (some mspot)
      ((runProximityEffect (some wg) (some mdata) (some wup) (some wT)
        none ∅).nearestSpotDist) (some wup) = some (30 / Real.pi) ∧
    isNear (userDistanceProp (some mspot)
      ((runProximityEffect (some wg) (some mdata) (some wup) (some wT)
        none ∅).nearestSpotDist) (some wup)) ∧
    mspot.has_mission = true := by
  have hud : userDistanceProp (some mspot) (some (JSNum.fin 30)) (some wup) =
      some (30 / Real.pi) := by
    simp only [userDistanceProp]
    rw [if_pos (show jsTruthy (JSNum.fin 30) from by norm_num [jsTruthy])]
    rw [show (mspot.pixel_x - wup.x) ^ 2 + (mspot.pixel_y - wup.y) ^ 2 =
        (30 / Real.pi) ^ 2 by simp only [mspot, wup]; ring]
    rw [Real.sqrt_sq (by positivity)]
  refine ⟨mrun_nearest, mdistReal_mspot, ?_, ?_, rfl⟩
  · rw [mrun_nearest]
    exact hud
  · rw [mrun_nearest, hud]
    simp only [isNear]
    rw [div_lt_iff₀ Real.pi_pos]
    nlinarith [Real.pi_gt_three]
